import Mathlib

/- Batteries marks the arithmetic of `Rat` irreducible, which blocks the
evaluation of `Decidable` instances on concrete rationals; restore the
default reducibility so that concrete runs of the embedded program can be
settled by `decide`. -/
attribute [local semireducible] Rat.mul Rat.inv Rat.add Rat.sub

/-!
Shallow embedding of `app.py` (Petrophysical LAS Viewer).

Floating-point samples are modelled exactly: a sample is either a finite
value (a rational, since every constant in the program is decimal) or the
IEEE not-a-number marker.  The comparisons the program performs
(`data != -999.25`, `data > 75`, `min`, `max`) are embedded with IEEE
semantics: `nan` compares unequal to everything, and every ordering test
involving `nan` is false.  Multiplication by the (finite, nonzero) unit
factors sends `nan` to `nan` and is exact on finite values.
-/

/-- Sample value of a LAS curve: a finite float (exact rational) or NaN. -/
inductive FVal where
| nan : FVal
| fin : ℚ → FVal
deriving DecidableEq

/-- IEEE equality test: `nan` is unequal to every value, itself included. -/
def feq : FVal → FVal → Bool
| FVal.fin a, FVal.fin b => decide (a = b)
| _, _ => false

/-- IEEE strict greater-than: any comparison with `nan` is false. -/
def fgt : FVal → FVal → Bool
| FVal.fin a, FVal.fin b => decide (b < a)
| _, _ => false

/-- IEEE strict less-than: any comparison with `nan` is false. -/
def flt : FVal → FVal → Bool
| FVal.fin a, FVal.fin b => decide (a < b)
| _, _ => false

/-- Scaling a sample by a finite factor (`x * 3.28084` and friends). -/
def fmul : FVal → ℚ → FVal
| FVal.nan, _ => FVal.nan
| FVal.fin a, c => FVal.fin (a * c)

/-- The LAS no-data sentinel `-999.25`. -/
def sentinel : ℚ := -(3997 / 4)

/-- The sentinel as a sample value. -/
def sentinelF : FVal := FVal.fin sentinel

/-- Measurement system chosen in the sidebar radio (line 23). -/
inductive UnitSystem where
| metric
| imperial
deriving DecidableEq

/-- Factor `3.28084` (metres to feet), written twice in the source
(lines 46 and 98). -/
def ftPerM : ℚ := 328084 / 100000

/-- Unit conversion map (lines 45-52).  Every lambda in the source is a
scaling `x * c` (the identity entries are `c = 1`), so each entry is
embedded as `(source unit, (target label, factor))`. -/
def unit_conversions : List (String × String × ℚ) :=
  [("m", ("ft", ftPerM)),
   ("g/cm3", ("lb/ft3", 62428 / 1000)),
   ("us/ft", ("us/ft", 1)),
   ("ohm.m", ("ohm.m", 1)),
   ("in", ("in", 1)),
   ("m3/m3", ("v/v", 1))]

/-- Dictionary lookup `unit_conversions[unit]` / `unit in unit_conversions`. -/
def lookupConv (u : String) : Option (String × ℚ) :=
  (unit_conversions.find? (fun e => e.1 == u)).map (fun e => e.2)

/-- Lines 117-121: if the system is Imperial and the unit is registered,
convert the data and take the target label; otherwise keep data and label
unchanged. -/
def convertData (sys : UnitSystem) (u : String) (vs : List FVal) :
    String × List FVal :=
  match sys, lookupConv u with
  | UnitSystem.imperial, some lc => (lc.1, vs.map (fun v => fmul v lc.2))
  | _, _ => (u, vs)

/-- Line 123, `mask = data != -999.25`, elementwise: NumPy `!=` on floats
is IEEE inequality, so `nan != -999.25` is true (a NaN sample passes). -/
def maskElem (v : FVal) : Bool := !(feq v sentinelF)

/-- Gamma-ray threshold for shale highlighting (line 133). -/
def gr_threshold : ℚ := 75

/-- Line 134, `shale_mask = (data > gr_threshold) & (data != -999.25)`,
elementwise. -/
def shaleMaskElem (v : FVal) : Bool :=
  fgt v (FVal.fin gr_threshold) && !(feq v sentinelF)

/-- Lines 117-126: the (x, y) pairs of the main trace for one curve:
the data is first converted (line 119), the mask is computed on the
converted data (line 123), and `x = data[mask]`, `y = depth[mask]`. -/
def seriesPoints (sys : UnitSystem) (u : String) (data depth : List FVal) :
    List (FVal × FVal) :=
  ((convertData sys u data).2.zip depth).filter (fun p => maskElem p.1)

/-- Lines 134-137: the (x, y) pairs of the shale-highlight trace, via
`shale_mask` over the same converted data. -/
def highlightPoints (sys : UnitSystem) (u : String) (data depth : List FVal) :
    List (FVal × FVal) :=
  ((convertData sys u data).2.zip depth).filter (fun p => shaleMaskElem p.1)

/-- Line 87: candidate depth mnemonics, in priority order. -/
def depth_mnemonics : List String := ["DEPT", "DEPTH", "MD", "TVD"]

/-- Line 88: `next((mn for mn in depth_mnemonics if mn in las.keys()), None)` -
the first candidate mnemonic present among the document's curve keys. -/
def depth_curve (keys : List String) : Option String :=
  depth_mnemonics.find? (fun mn => keys.contains mn)

/-- Lines 96-99: the depth variable is rescaled in place under Imperial
(`depth = depth * 3.28084`) and left alone under Metric. -/
def rescaleDepth (sys : UnitSystem) (rawDepth : List FVal) : List FVal :=
  match sys with
  | UnitSystem.imperial => rawDepth.map (fun v => fmul v ftPerM)
  | UnitSystem.metric => rawDepth

/-- Statements of the main script after a successful LAS parse, at the
granularity the claims need (lines 87-179). -/
inductive Stmt where
| assignDepth
| errorNoDepth
| stop
| convertDepth
| parseTops
| plotTracks
| exportCSV
deriving DecidableEq

/-- Lines 90-179 as a statement list.  Line 94's `st.stop()` is indented
at the level of the `if`/`else` (four spaces), not inside the `else`
branch (eight spaces), so it follows the conditional unconditionally. -/
def script (keys : List String) : List Stmt :=
  (if (depth_curve keys).isSome then [Stmt.assignDepth]
   else [Stmt.errorNoDepth]) ++
  [Stmt.stop] ++
  [Stmt.convertDepth, Stmt.parseTops, Stmt.plotTracks, Stmt.exportCSV]

/-- Streamlit semantics of `st.stop()`: script execution halts there, so
the statements actually executed are the prefix up to the first `stop`. -/
def runUntilStop : List Stmt → List Stmt
| [] => []
| s :: rest => if s = Stmt.stop then [Stmt.stop] else s :: runUntilStop rest

/-!
Formation-tops parsing (lines 103-107).  Python string operations are
embedded over the character list of the string: `str.split(sep)` with a
one-character separator, `str.strip()`, and `float(str)`.
-/

/-- Python `str.split(sep)` for a one-character separator: splitting the
empty string yields `[""]`, and adjacent separators yield empty fields. -/
def splitOnChar (sep : Char) : List Char → List (List Char)
| [] => [[]]
| c :: cs =>
  if c = sep then [] :: splitOnChar sep cs
  else
    match splitOnChar sep cs with
    | [] => [[c]]
    | h :: t => (c :: h) :: t

/-- Python `str.strip()`: drop leading and trailing whitespace. -/
def trimChars (cs : List Char) : List Char :=
  ((cs.dropWhile Char.isWhitespace).reverse.dropWhile Char.isWhitespace).reverse

/-- Numeric value of a decimal digit character. -/
def digitVal (c : Char) : ℕ := c.toNat - 48

/-- Value of a digit run read as an integer. -/
def digitsToNat (cs : List Char) : ℕ :=
  cs.foldl (fun n c => 10 * n + digitVal c) 0

/-- Value of a digit run read as a fractional part (after the dot). -/
def fracVal (cs : List Char) : ℚ :=
  cs.foldr (fun c acc => ((digitVal c : ℚ) + acc) / 10) 0

/-- Unsigned decimal literal: digits with at most one dot and at least
one digit (`"1000"`, `"10.5"`, `"1."`, `".5"`); anything else fails. -/
def parseUnsigned (cs : List Char) : Option ℚ :=
  let intPart := cs.takeWhile (fun c => c ≠ '.')
  let rest := cs.dropWhile (fun c => c ≠ '.')
  if intPart.all Char.isDigit then
    match rest with
    | [] => if intPart.isEmpty then none else some (digitsToNat intPart : ℚ)
    | _ :: frac =>
      if frac.all Char.isDigit && !(intPart.isEmpty && frac.isEmpty) then
        some ((digitsToNat intPart : ℚ) + fracVal frac)
      else none
  else none

/-- Python `float(s)` on the shapes this program's inputs exercise:
optionally signed plain decimal literals.  `none` models the
`ValueError` that `float` raises on any other input.  (Exponents,
`inf`/`nan` words and digit underscores, which `float` also accepts, are
outside the inputs considered here and would only enlarge the success
set.) -/
def pyFloat (cs : List Char) : Option ℚ :=
  match cs with
  | '-' :: rest => (parseUnsigned rest).map (fun q => -q)
  | '+' :: rest => parseUnsigned rest
  | _ => parseUnsigned cs

/-- Line 104: keep exactly the lines that split on `","` into exactly two
fields, as (name field, depth field) pairs. -/
def topsLines (raw : String) : List (List Char × List Char) :=
  (splitOnChar '\x0a' raw.data).filterMap (fun line =>
    match splitOnChar ',' line with
    | [a, b] => some (a, b)
    | _ => none)

/-- CPython dict assignment `d[k] = v`: an existing key keeps its position
and gets the new value; a new key is appended. -/
def pyDictInsert {α : Type} (d : List (String × α)) (k : String) (v : α) :
    List (String × α) :=
  if d.any (fun p => p.1 == k) then
    d.map (fun p => if p.1 == k then (p.1, v) else p)
  else d ++ [(k, v)]

/-- Python dict lookup by key. -/
def pyLookup {α : Type} (d : List (String × α)) (k : String) : Option α :=
  (d.find? (fun p => p.1 == k)).map (fun p => p.2)

/-- One step of the dict comprehension on line 107: strip the two fields,
run `float` on the depth field (propagating its failure), and assign into
the dict under the stripped name. -/
def topsStep (od : Option (List (String × ℚ))) (p : List Char × List Char) :
    Option (List (String × ℚ)) :=
  od.bind (fun d =>
    (pyFloat (trimChars p.2)).map (fun q =>
      pyDictInsert d (String.mk (trimChars p.1)) q))

/-- Line 107: `{name.strip(): float(depth.strip()) for name, depth in tops}`.
The comprehension builds a dict (duplicate keys collapse, last value
wins) and raises as soon as one `float` call raises; the failure is
modelled as `none`. -/
def tops_dict (raw : String) : Option (List (String × ℚ)) :=
  (topsLines raw).foldl topsStep (some [])

/-!
The plotting function `make_track` (lines 110-157) and the CSV export
(lines 175-179).
-/

/-- One curve of the parsed LAS document: mnemonic, unit string and raw
samples. -/
structure Curve where
  mnemonic : String
  unit : String
  data : List FVal
deriving DecidableEq

/-- One plotly scatter trace as the program builds it: x samples,
y samples, legend label, legend visibility. -/
structure Trace where
  xs : List FVal
  ys : List FVal
  label : String
  showlegend : Bool
deriving DecidableEq

/-- One horizontal tops line shape (line 146). -/
structure Shape where
  x0 : FVal
  x1 : FVal
  y0 : ℚ
  y1 : ℚ
deriving DecidableEq

/-- One tops text label (line 148). -/
structure TextMark where
  x : FVal
  y : ℚ
  text : String
deriving DecidableEq

/-- The figure a track renders to: traces, tops line shapes, tops labels. -/
structure Figure where
  traces : List Trace
  shapes : List Shape
  textMarks : List TextMark
deriving DecidableEq

/-- Membership test / lookup `curve in las.curves`, `las[curve]`:
curves are addressed by mnemonic. -/
def findCurve (las : List Curve) (name : String) : Option Curve :=
  las.find? (fun c => c.mnemonic == name)

/-- Python builtin `min` over a nonempty sequence headed by `x`: keeps the
current best unless a later element tests strictly smaller (IEEE `<`, so
`nan` never displaces the best, but a leading `nan` is kept). -/
def pymin1 (x : FVal) (xs : List FVal) : FVal :=
  xs.foldl (fun b v => if flt v b then v else b) x

/-- Python builtin `max` over a nonempty sequence headed by `x`. -/
def pymax1 (x : FVal) (xs : List FVal) : FVal :=
  xs.foldl (fun b v => if fgt v b then v else b) x

/-- Loop body of lines 113-142: a requested curve absent from the document
is skipped; a present curve is converted, masked and traced (plus the
shale overlay for `GR` when highlighting).  The second component tracks
the Python local `data`, which retains the last converted samples. -/
def trackStep (las : List Curve) (sys : UnitSystem) (depth : List FVal)
    (highlight : Bool) (acc : List Trace × Option (List FVal)) (cn : String) :
    List Trace × Option (List FVal) :=
  match findCurve las cn with
  | none => acc
  | some c =>
    let conv := convertData sys c.unit c.data
    let pts := (conv.2.zip depth).filter (fun p => maskElem p.1)
    let mainTrace : Trace :=
      ⟨pts.map Prod.fst, pts.map Prod.snd, cn ++ " (" ++ conv.1 ++ ")", true⟩
    let shale : List Trace :=
      if highlight && cn == "GR" then
        let spts := (conv.2.zip depth).filter (fun p => shaleMaskElem p.1)
        [⟨spts.map Prod.fst, spts.map Prod.snd, "Shale Zone", false⟩]
      else []
    (acc.1 ++ mainTrace :: shale, some conv.2)

/-- Lines 144-148: the tops loop after the curve loop.  It draws one line
shape and one text label per `tops_dict` entry, spanning `min(data)` to
`max(data)` of the loop variable `data` (the second state component).
When the tops dict is nonempty but no requested curve was present, `data`
was never assigned and Python raises `NameError`; when `data` is an empty
array, `min` raises `ValueError`.  Both are modelled as `Except.error`.
With an empty tops dict the loop body never runs, so `data` is not
touched and the figure is returned. -/
def topsOverlay (tops : List (String × ℚ))
    (state : List Trace × Option (List FVal)) : Except String Figure :=
  if tops.isEmpty then Except.ok ⟨state.1, [], []⟩
  else
    match state.2 with
    | none => Except.error "NameError: name data is not defined"
    | some [] => Except.error "ValueError: min arg is an empty sequence"
    | some (x :: xs) =>
      Except.ok ⟨state.1,
        tops.map (fun p => ⟨pymin1 x xs, pymax1 x xs, p.2, p.2⟩),
        tops.map (fun p => ⟨pymax1 x xs, p.2, p.1⟩)⟩

/-- Lines 110-157, `make_track`: the curve loop followed by the tops
overlay loop. -/
def make_track (las : List Curve) (sys : UnitSystem) (depth : List FVal)
    (tops : List (String × ℚ)) (curveNames : List String) (highlight : Bool) :
    Except String Figure :=
  topsOverlay tops
    (curveNames.foldl (trackStep las sys depth highlight) ([], none))

/-- One step of the dict comprehension on line 177: look the curve up by
mnemonic (`las[curve]` raises `KeyError`, modelled as `none`, when it is
absent) and assign its raw samples into the dict. -/
def exportStep (las : List Curve) (od : Option (List (String × List FVal)))
    (cn : String) : Option (List (String × List FVal)) :=
  od.bind (fun d => (findCurve las cn).map (fun c => pyDictInsert d cn c.data))

/-- Line 177: `{curve: las[curve] for curve in selected_curves}` - one
raw-sample column per selected curve, in a dict (duplicates collapse). -/
def exportCols (las : List Curve) (selected : List String) :
    Option (List (String × List FVal)) :=
  selected.foldl (exportStep las) (some [])

/-- Lines 177-178: the export table - the raw curve columns plus a
`Depth` column holding the current depth variable (which lines 96-99
rescaled under Imperial). -/
def exportTable (las : List Curve) (selected : List String)
    (depthVar : List FVal) : Option (List (String × List FVal)) :=
  (exportCols las selected).map (fun d => pyDictInsert d "Depth" depthVar)

/-!
Helper lemmas about the Python dict embedding and the fold loops.
-/

/-- Depth rescaling never changes the number of samples. -/
theorem rescaleDepth_length (sys : UnitSystem) (l : List FVal) :
    (rescaleDepth sys l).length = l.length := by
  cases sys <;> simp [rescaleDepth]

/-- After `d[k] = v`, looking up `k` yields `v`. -/
theorem pyLookup_insert_self {α : Type} (d : List (String × α)) (k : String)
    (v : α) : pyLookup (pyDictInsert d k v) k = some v := by
  induction d with
  | nil => simp [pyDictInsert, pyLookup]
  | cons p ds ih =>
    by_cases hp : p.1 = k
    · simp [pyDictInsert, pyLookup, hp]
    · cases han : ds.any (fun q => q.1 == k) with
      | true =>
        simpa [pyDictInsert, pyLookup, hp, han] using ih
      | false =>
        simpa [pyDictInsert, pyLookup, hp, han] using ih

/-- Every entry of `d` after `d[k] = v` is an old entry or carries key `k`
and value `v`. -/
theorem mem_pyDictInsert {α : Type} {d : List (String × α)} {k : String}
    {v : α} {q : String × α} (hq : q ∈ pyDictInsert d k v) :
    q ∈ d ∨ (q.1 = k ∧ q.2 = v) := by
  unfold pyDictInsert at hq
  cases hB : d.any (fun p => p.1 == k) with
  | true =>
    rw [hB, if_pos rfl] at hq
    rcases List.mem_map.mp hq with ⟨p, hp, hfp⟩
    by_cases ht : p.1 = k
    · right
      rw [if_pos (by simpa using ht)] at hfp
      rw [← hfp]
      exact ⟨ht, rfl⟩
    · left
      rw [if_neg (by simpa using ht)] at hfp
      rw [← hfp]
      exact hp
  | false =>
    rw [hB] at hq
    simp only [Bool.false_eq_true, if_false] at hq
    rcases List.mem_append.mp hq with h1 | h2
    · exact Or.inl h1
    · right
      rcases List.mem_singleton.mp h2 with rfl
      exact ⟨rfl, rfl⟩

/-- The dict assignment keeps the keys free of duplicates. -/
theorem nodup_keys_pyDictInsert {α : Type} {d : List (String × α)}
    (k : String) (v : α) (hd : (d.map Prod.fst).Nodup) :
    ((pyDictInsert d k v).map Prod.fst).Nodup := by
  unfold pyDictInsert
  cases hB : d.any (fun p => p.1 == k) with
  | true =>
    rw [if_pos rfl]
    have hmap : (d.map (fun p => if p.1 == k then (p.1, v) else p)).map Prod.fst
        = d.map Prod.fst := by
      rw [List.map_map]
      refine List.map_congr_left (fun p _ => ?_)
      by_cases ht : p.1 = k <;> simp [ht]
    rw [hmap]
    exact hd
  | false =>
    simp only [Bool.false_eq_true, if_false, List.map_append, List.map_cons,
      List.map_nil]
    rw [List.nodup_append]
    refine ⟨hd, List.nodup_singleton k, ?_⟩
    intro x hx hk
    have hxk : x = k := List.mem_singleton.mp hk
    subst hxk
    rcases List.mem_map.mp hx with ⟨p, hp, hpx⟩
    have hT : d.any (fun q => q.1 == x) = true :=
      List.any_eq_true.mpr ⟨p, hp, by simp [hpx]⟩
    rw [hB] at hT
    cases hT

/-- Once a `float` call has raised, the rest of the tops comprehension
never recovers. -/
theorem foldl_topsStep_none :
    ∀ L : List (List Char × List Char), L.foldl topsStep none = none := by
  intro L
  induction L with
  | nil => rfl
  | cons p L ih => rw [List.foldl_cons]; exact ih

/-- Once a curve lookup has raised, the rest of the export comprehension
never recovers. -/
theorem foldl_exportStep_none (las : List Curve) :
    ∀ sel : List String, sel.foldl (exportStep las) none = none := by
  intro sel
  induction sel with
  | nil => rfl
  | cons cn sel ih => rw [List.foldl_cons]; exact ih

/-- The tops comprehension preserves duplicate-free keys. -/
theorem tops_fold_nodup :
    ∀ (L : List (List Char × List Char)) (d : List (String × ℚ)),
    (d.map Prod.fst).Nodup → ∀ {t : List (String × ℚ)},
    L.foldl topsStep (some d) = some t → (t.map Prod.fst).Nodup := by
  intro L
  induction L with
  | nil =>
    intro d hd t ht
    rw [List.foldl_nil] at ht
    cases ht
    exact hd
  | cons p L ih =>
    intro d hd t ht
    rw [List.foldl_cons] at ht
    cases hq : pyFloat (trimChars p.2) with
    | none =>
      rw [show topsStep (some d) p = none by simp [topsStep, hq]] at ht
      rw [foldl_topsStep_none] at ht
      cases ht
    | some q =>
      rw [show topsStep (some d) p
          = some (pyDictInsert d (String.mk (trimChars p.1)) q) by
        simp [topsStep, hq]] at ht
      exact ih _ (nodup_keys_pyDictInsert _ _ hd) ht

/-- Every column the export comprehension accumulates is the raw sample
list of the curve found under its key. -/
theorem exportCols_inv (las : List Curve) :
    ∀ (sel : List String) (d : List (String × List FVal)),
    (∀ q ∈ d, ∃ c, findCurve las q.1 = some c ∧ q.2 = c.data) →
    ∀ {t : List (String × List FVal)},
    sel.foldl (exportStep las) (some d) = some t →
    ∀ q ∈ t, ∃ c, findCurve las q.1 = some c ∧ q.2 = c.data := by
  intro sel
  induction sel with
  | nil =>
    intro d hd t ht
    rw [List.foldl_nil] at ht
    cases ht
    exact hd
  | cons cn sel ih =>
    intro d hd t ht
    rw [List.foldl_cons] at ht
    cases hc : findCurve las cn with
    | none =>
      rw [show exportStep las (some d) cn = none by simp [exportStep, hc]] at ht
      rw [foldl_exportStep_none] at ht
      cases ht
    | some c =>
      rw [show exportStep las (some d) cn = some (pyDictInsert d cn c.data) by
        simp [exportStep, hc]] at ht
      refine ih _ (fun q hq => ?_) ht
      rcases mem_pyDictInsert hq with hold | ⟨hk, hv⟩
      · exact hd q hold
      · exact ⟨c, by rw [hk]; exact hc, hv⟩

/-- A curve loop over names none of which are in the document leaves the
state untouched (in particular the local `data` stays unassigned). -/
theorem foldl_trackStep_absent (las : List Curve) (sys : UnitSystem)
    (depth : List FVal) (hl : Bool) :
    ∀ (names : List String) (acc : List Trace × Option (List FVal)),
    (∀ n ∈ names, findCurve las n = none) →
    names.foldl (trackStep las sys depth hl) acc = acc := by
  intro names
  induction names with
  | nil => intro acc _; rfl
  | cons cn names ih =>
    intro acc h
    rw [List.foldl_cons]
    rw [show trackStep las sys depth hl acc cn = acc by
      simp [trackStep, h cn (by simp)]]
    exact ih acc (fun n hn => h n (by simp [hn]))

/-!
Claim theorems.
-/

/-- Claim C1 (code bug): the validity mask is computed on the converted
samples, not the raw ones.  Under Metric the sentinel sample is excluded,
but under Imperial with a registered unit (`m`) the sentinel is first
scaled by 3.28084, no longer equals `-999.25`, passes the mask and is
plotted - contradicting the claimed raw-sample (pre-conversion) masking. -/
theorem c1_sentinel_plotted_under_imperial :
    seriesPoints UnitSystem.metric "m" [sentinelF] [FVal.fin 1000] = [] ∧
    seriesPoints UnitSystem.imperial "m" [sentinelF] [FVal.fin 1000]
      = [(fmul sentinelF ftPerM, FVal.fin 1000)] ∧
    fmul sentinelF ftPerM ≠ sentinelF := by
  decide

/-- Claim C2 counterexample: a NaN sample is not excluded from the
rendered series - NumPy `nan != -999.25` is true, so the mask keeps it. -/
theorem c2_nan_sample_rendered :
    seriesPoints UnitSystem.metric "gAPI" [FVal.nan] [FVal.fin 1000]
      = [(FVal.nan, FVal.fin 1000)] := by
  decide

/-- Claim C2 amended: a sample is masked out if and only if it equals the
sentinel `-999.25` under IEEE exact equality; NaN samples compare unequal
to the sentinel, so they are never classified invalid. -/
theorem c2_mask_iff_sentinel :
    ∀ v : FVal, maskElem v = false ↔ v = sentinelF := by
  intro v
  cases v <;> simp [maskElem, feq, sentinelF]

/-- Claim C3 counterexample: a line that does split into exactly two
comma-separated fields but whose depth field does not parse as a float is
not silently discarded - `float` raises and the whole parse fails. -/
theorem c3_bad_depth_field_raises : tops_dict "A, xyz" = none := by
  decide

/-- Claim C3 amended: only the field-count check is lenient.  Lines that
do not split into exactly two comma-separated fields (no comma, or two or
more commas) are silently dropped, but a two-field line with an
unparseable depth aborts the whole parse, so parsing is not total. -/
theorem c3_tops_lenient_only_for_field_count :
    tops_dict "Top1, 1000\x0aTop2, 1500"
      = some [("Top1", 1000), ("Top2", 1500)] ∧
    tops_dict "Top1, 1000\x0abadline\x0aTop2, 1500"
      = some [("Top1", 1000), ("Top2", 1500)] ∧
    tops_dict "a,b,c" = some [] ∧
    tops_dict "Top1, 1000\x0aTop2, oops" = none := by
  decide

/-- Claim C5 (code bug): the depth mnemonic resolution itself follows the
fixed priority order `[DEPT, DEPTH, MD, TVD]` (a document with only `MD`
resolves to `MD`, `DEPT` beats `TVD`, and no candidate yields `none`,
which error-stops the script), but a successful resolution does not let
the pipeline proceed: line 94's unconditional `st.stop()` halts the
script before the tops/track/export stages in the success case too. -/
theorem c5_depth_priority_then_unconditional_stop :
    depth_curve ["X", "MD"] = some "MD" ∧
    depth_curve ["TVD", "DEPT"] = some "DEPT" ∧
    depth_curve ["X", "Y"] = none ∧
    runUntilStop (script ["X", "Y"]) = [Stmt.errorNoDepth, Stmt.stop] ∧
    runUntilStop (script ["DEPT"]) = [Stmt.assignDepth, Stmt.stop] ∧
    Stmt.plotTracks ∉ runUntilStop (script ["DEPT"]) ∧
    Stmt.exportCSV ∉ runUntilStop (script ["DEPT"]) := by
  decide

/-- Claim C6: unit conversion is the identity under the Metric system for
every unit and value list, and under any system for a source unit with no
registered conversion the label and the values are returned unchanged. -/
theorem c6_convert_identity :
    (∀ (u : String) (vs : List FVal),
      convertData UnitSystem.metric u vs = (u, vs)) ∧
    (∀ (sys : UnitSystem) (u : String) (vs : List FVal),
      lookupConv u = none → convertData sys u vs = (u, vs)) := by
  constructor
  · intro u vs
    cases h : lookupConv u <;> simp [convertData, h]
  · intro sys u vs h
    cases sys <;> simp [convertData, h]

/-- Witness for C6 at a concrete unregistered unit under Imperial. -/
theorem c6_convert_identity_witness :
    lookupConv "gAPI" = none ∧
    convertData UnitSystem.imperial "gAPI" [FVal.fin 50]
      = ("gAPI", [FVal.fin 50]) :=
  ⟨by decide, c6_convert_identity.2 UnitSystem.imperial "gAPI" [FVal.fin 50]
    (by decide)⟩

/-- Claim C9: for every uploaded document (whatever its curve keys), the
script executes the unconditional `st.stop()` right after the depth
lookup, and the tops-parsing, track-plotting and CSV-export statements
are never reached. -/
theorem c9_stop_unconditional :
    ∀ keys : List String,
    Stmt.stop ∈ runUntilStop (script keys) ∧
    Stmt.parseTops ∉ runUntilStop (script keys) ∧
    Stmt.plotTracks ∉ runUntilStop (script keys) ∧
    Stmt.exportCSV ∉ runUntilStop (script keys) := by
  intro keys
  unfold script
  split <;> decide

/-- Claim C7 counterexample: two tops lines with the same name collapse
into a single dict entry whose depth is the later line's depth, so only
one marker can be rendered - duplicates are overwritten, not retained. -/
theorem c7_duplicate_name_overwritten :
    tops_dict "Top1, 1000\x0aTop1, 1500" = some [("Top1", 1500)] := by
  decide

/-- Claim C7 amended: the tops dict never holds two entries with the same
formation name (a duplicate overwrites the earlier depth), and the track
renders exactly one marker per dict entry. -/
theorem c7_duplicate_tops_collapse :
    (∀ (raw : String) (d : List (String × ℚ)),
      tops_dict raw = some d → (d.map Prod.fst).Nodup) ∧
    (∀ (las : List Curve) (sys : UnitSystem) (depth : List FVal)
       (tops : List (String × ℚ)) (names : List String) (hl : Bool)
       (fig : Figure),
      make_track las sys depth tops names hl = Except.ok fig →
      fig.textMarks.length = tops.length) := by
  constructor
  · intro raw d h
    unfold tops_dict at h
    exact tops_fold_nodup (topsLines raw) [] (by simp) h
  · intro las sys depth tops names hl fig h
    unfold make_track topsOverlay at h
    split at h
    next htops =>
      injection h with hfig
      rw [← hfig]
      have hnil : tops = [] := by
        cases tops with
        | nil => rfl
        | cons t ts => cases htops
      rw [hnil]
      rfl
    next =>
      split at h
      next => cases h
      next => cases h
      next x xs =>
        injection h with hfig
        rw [← hfig]
        simp

/-- Witness for C7 at the duplicate-name input and an empty track. -/
theorem c7_duplicate_tops_collapse_witness :
    (([("Top1", (1500 : ℚ))].map Prod.fst).Nodup) ∧
    (Figure.mk [] [] []).textMarks.length
      = ([] : List (String × ℚ)).length :=
  ⟨c7_duplicate_tops_collapse.1 "Top1, 1000\x0aTop1, 1500"
      [("Top1", 1500)] (by decide),
   c7_duplicate_tops_collapse.2 [] UnitSystem.metric [] [] [] false
      (Figure.mk [] [] []) rfl⟩

/-- Claim C8 counterexample: the highlight mask tests the converted
sample, not the raw one.  A `GR` curve with unit `m` and raw sample 30
(below the threshold 75, so the claimed mask is false) is scaled to
98.4252 under Imperial and gets highlighted anyway. -/
theorem c8_highlight_threshold_on_converted_sample :
    fgt (FVal.fin 30) (FVal.fin gr_threshold) = false ∧
    shaleMaskElem (FVal.fin 30) = false ∧
    highlightPoints UnitSystem.imperial "m" [FVal.fin 30] [FVal.fin 1000]
      = [(FVal.fin (246063 / 2500), FVal.fin 1000)] := by
  decide

/-- Claim C8 amended: the highlight mask is the conjunction of the
validity mask and the strict threshold test evaluated on the converted
samples (so it coincides with the claim whenever no conversion applies);
every highlighted point also lies in the main series; on the concrete
example `[10, 80, 90, -999.25, 60]` (with the unregistered unit `gAPI`)
exactly the samples at indices 1 and 2 are highlighted; and the overlay
is emitted as a second, legend-suppressed trace. -/
theorem c8_highlight_series :
    (∀ v : FVal,
      shaleMaskElem v = (fgt v (FVal.fin gr_threshold) && maskElem v)) ∧
    (∀ (sys : UnitSystem) (u : String) (data depth : List FVal),
      List.Sublist (highlightPoints sys u data depth)
        (seriesPoints sys u data depth)) ∧
    highlightPoints UnitSystem.metric "gAPI"
      [FVal.fin 10, FVal.fin 80, FVal.fin 90, sentinelF, FVal.fin 60]
      [FVal.fin 1, FVal.fin 2, FVal.fin 3, FVal.fin 4, FVal.fin 5]
      = [(FVal.fin 80, FVal.fin 2), (FVal.fin 90, FVal.fin 3)] ∧
    (make_track
        [⟨"GR", "gAPI",
          [FVal.fin 10, FVal.fin 80, FVal.fin 90, sentinelF, FVal.fin 60]⟩]
        UnitSystem.metric
        [FVal.fin 1, FVal.fin 2, FVal.fin 3, FVal.fin 4, FVal.fin 5]
        [] ["GR"] true).toOption.map
          (fun f => f.traces.map (fun t => (t.label, t.showlegend)))
      = some [("GR (gAPI)", true), ("Shale Zone", false)] := by
  refine ⟨fun v => rfl, fun sys u data depth => ?_, by decide, by decide⟩
  refine List.monotone_filter_right _ (fun a ha => ?_)
  have ha2 : fgt a.1 (FVal.fin gr_threshold) = true
      ∧ (!(feq a.1 sentinelF)) = true := by
    simpa [shaleMaskElem] using ha
  exact ha2.2

/-- Claim C10: when the tops dict is nonempty and no requested curve is
present in the document, the tops loop reads the never-assigned loop
variable `data` and `make_track` fails instead of returning a figure;
when `data` is bound, the marker span is `min`..`max` of the last
processed curve's converted, unmasked samples - including the `-999.25`
sentinel, which becomes the span minimum in the concrete run. -/
theorem c10_tops_span_uses_loop_variable :
    (∀ (las : List Curve) (sys : UnitSystem) (depth : List FVal)
       (tops : List (String × ℚ)) (names : List String) (hl : Bool),
      (∀ n ∈ names, findCurve las n = none) → tops ≠ [] →
      ∃ e, make_track las sys depth tops names hl = Except.error e) ∧
    (make_track [⟨"A", "gAPI", [FVal.fin 50, sentinelF, FVal.fin 80]⟩]
        UnitSystem.metric [FVal.fin 1, FVal.fin 2, FVal.fin 3]
        [("T", 1000)] ["A"] false).toOption.map Figure.shapes
      = some [⟨sentinelF, FVal.fin 80, 1000, 1000⟩] ∧
    (make_track [⟨"A", "gAPI", [FVal.fin 1, FVal.fin 2]⟩,
        ⟨"B", "gAPI", [FVal.fin 5, FVal.fin 7]⟩]
        UnitSystem.metric [FVal.fin 1, FVal.fin 2]
        [("T", 100)] ["A", "B"] false).toOption.map Figure.shapes
      = some [⟨FVal.fin 5, FVal.fin 7, 100, 100⟩] := by
  refine ⟨?_, by decide, by decide⟩
  intro las sys depth tops names hl habs htops
  cases tops with
  | nil => exact absurd rfl htops
  | cons t ts =>
    refine ⟨"NameError: name data is not defined", ?_⟩
    unfold make_track
    rw [foldl_trackStep_absent las sys depth hl names ([], none) habs]
    rfl

/-- Witness for C10 with an empty document, one requested curve and one
formation top. -/
theorem c10_tops_span_uses_loop_variable_witness :
    ∃ e, make_track [] UnitSystem.metric [] [("T", 1)] ["GR"] false
      = Except.error e :=
  c10_tops_span_uses_loop_variable.1 [] UnitSystem.metric [] [("T", 1)]
    ["GR"] false (by decide) (by decide)

/-- Claim C4 counterexample: under Imperial the export's `Depth` column
holds the converted depth (raw times 3.28084), not the raw metric depth,
so the export is not unit-system-independent. -/
theorem c4_depth_column_converted_under_imperial :
    exportTable [⟨"GR", "gAPI", [FVal.fin 50]⟩] ["GR"]
        (rescaleDepth UnitSystem.imperial [FVal.fin 1000])
      = some [("GR", [FVal.fin 50]), ("Depth", [FVal.fin (328084 / 100)])] ∧
    [FVal.fin ((328084 : ℚ) / 100)] ≠ [FVal.fin 1000] := by
  decide

/-- Claim C4 amended: the exported table always has one row per document
sample and carries the raw, unconverted samples of every selected curve,
but its `Depth` column equals the current depth variable - the raw depth
under Metric and the 3.28084-rescaled depth under Imperial. -/
theorem c4_export_columns :
    ∀ (las : List Curve) (sys : UnitSystem) (rawDepth : List FVal)
      (selected : List String) (t : List (String × List FVal)) (n : ℕ),
    exportTable las selected (rescaleDepth sys rawDepth) = some t →
    (∀ c ∈ las, c.data.length = n) → rawDepth.length = n →
    pyLookup t "Depth" = some (rescaleDepth sys rawDepth) ∧
    rescaleDepth UnitSystem.metric rawDepth = rawDepth ∧
    (∀ q ∈ t, q.2.length = n) ∧
    (∀ q ∈ t, q.1 = "Depth"
      ∨ ∃ c, findCurve las q.1 = some c ∧ q.2 = c.data) := by
  intro las sys rawDepth selected t n hexp hlen hdlen
  unfold exportTable at hexp
  rcases Option.map_eq_some'.mp hexp with ⟨d0, hd0, ht⟩
  unfold exportCols at hd0
  subst ht
  have hinv := exportCols_inv las selected [] (by simp) hd0
  refine ⟨pyLookup_insert_self d0 "Depth" (rescaleDepth sys rawDepth), rfl,
    ?_, ?_⟩
  · intro q hq
    rcases mem_pyDictInsert hq with hq0 | ⟨hk, hv⟩
    · rcases hinv q hq0 with ⟨c, hc, hval⟩
      have hcm : c ∈ las := List.mem_of_find?_eq_some hc
      rw [hval]
      exact hlen c hcm
    · rw [hv, rescaleDepth_length]
      exact hdlen
  · intro q hq
    rcases mem_pyDictInsert hq with hq0 | ⟨hk, hv⟩
    · exact Or.inr (hinv q hq0)
    · exact Or.inl hk

/-- Witness for C4 at a one-curve document under Imperial. -/
theorem c4_export_columns_witness :
    pyLookup [("GR", [FVal.fin 50]), ("Depth", [FVal.fin (328084 / 100)])]
        "Depth" = some (rescaleDepth UnitSystem.imperial [FVal.fin 1000]) ∧
    rescaleDepth UnitSystem.metric [FVal.fin 1000] = [FVal.fin 1000] ∧
    (∀ q ∈ [("GR", [FVal.fin 50]),
        ("Depth", [FVal.fin ((328084 : ℚ) / 100)])], q.2.length = 1) ∧
    (∀ q ∈ [("GR", [FVal.fin 50]),
        ("Depth", [FVal.fin ((328084 : ℚ) / 100)])],
      q.1 = "Depth"
        ∨ ∃ c, findCurve [⟨"GR", "gAPI", [FVal.fin 50]⟩] q.1 = some c
            ∧ q.2 = c.data) :=
  c4_export_columns [⟨"GR", "gAPI", [FVal.fin 50]⟩] UnitSystem.imperial
    [FVal.fin 1000] ["GR"]
    [("GR", [FVal.fin 50]), ("Depth", [FVal.fin (328084 / 100)])] 1
    (by decide) (by decide) (by decide)
